import Mathlib

/-!
# Verification of the variant-backend A/B testing service

Shallow embedding of `src/app.py` (an A/B testing assignment-and-tracking
backend): the deterministic MD5 bucketing function, the cumulative-threshold
variant selector, the experiment/event store operations, and the HTTP route
table.  Machine integers are modelled as `Nat`/`Int` with explicit reductions
modulo `2 ^ 32` where the hash computation overflows.
-/

set_option autoImplicit false
set_option maxRecDepth 10000

namespace VariantBackend

/-! ## MD5 (as used by `hashlib.md5` in `get_bucket`)

Bytes are naturals `< 256`; 32-bit words are naturals `< 2 ^ 32`.
-/

/-- `2 ^ 32`, the word modulus of MD5. -/
def w32 : Nat := 4294967296

/-- Per-round left-rotation amounts of MD5. -/
def md5S : List Nat :=
  [7, 12, 17, 22, 7, 12, 17, 22, 7, 12, 17, 22, 7, 12, 17, 22,
   5, 9, 14, 20, 5, 9, 14, 20, 5, 9, 14, 20, 5, 9, 14, 20,
   4, 11, 16, 23, 4, 11, 16, 23, 4, 11, 16, 23, 4, 11, 16, 23,
   6, 10, 15, 21, 6, 10, 15, 21, 6, 10, 15, 21, 6, 10, 15, 21]

/-- The 64 sine-derived additive constants of MD5. -/
def md5K : List Nat :=
  [0xd76aa478, 0xe8c7b756, 0x242070db, 0xc1bdceee,
   0xf57c0faf, 0x4787c62a, 0xa8304613, 0xfd469501,
   0x698098d8, 0x8b44f7af, 0xffff5bb1, 0x895cd7be,
   0x6b901122, 0xfd987193, 0xa679438e, 0x49b40821,
   0xf61e2562, 0xc040b340, 0x265e5a51, 0xe9b6c7aa,
   0xd62f105d, 0x02441453, 0xd8a1e681, 0xe7d3fbc8,
   0x21e1cde6, 0xc33707d6, 0xf4d50d87, 0x455a14ed,
   0xa9e3e905, 0xfcefa3f8, 0x676f02d9, 0x8d2a4c8a,
   0xfffa3942, 0x8771f681, 0x6d9d6122, 0xfde5380c,
   0xa4beea44, 0x4bdecfa9, 0xf6bb4b60, 0xbebfbc70,
   0x289b7ec6, 0xeaa127fa, 0xd4ef3085, 0x04881d05,
   0xd9d4d039, 0xe6db99e5, 0x1fa27cf8, 0xc4ac5665,
   0xf4292244, 0x432aff97, 0xab9423a7, 0xfc93a039,
   0x655b59c3, 0x8f0ccc92, 0xffeff47d, 0x85845dd1,
   0x6fa87e4f, 0xfe2ce6e0, 0xa3014314, 0x4e0811a1,
   0xf7537e82, 0xbd3af235, 0x2ad7d2bb, 0xeb86d391]

/-- `n` bytes of `x` in little-endian order. -/
def leBytes : Nat → Nat → List Nat
  | 0, _ => []
  | n + 1, x => x % 256 :: leBytes n (x / 256)

/-- MD5 padding: a `0x80` byte, zeros to 56 mod 64, then the bit length
as 8 little-endian bytes (mod `2 ^ 64`). -/
def md5Pad (msg : List Nat) : List Nat :=
  let padZeros := (56 + 64 - (msg.length + 1) % 64) % 64
  msg ++ [128] ++ List.replicate padZeros 0 ++ leBytes 8 ((msg.length * 8) % 2 ^ 64)

/-- The `i`-th little-endian 32-bit word of a 64-byte chunk. -/
def leWord (chunk : List Nat) (i : Nat) : Nat :=
  chunk.getD (4 * i) 0 + 256 * chunk.getD (4 * i + 1) 0 +
    65536 * chunk.getD (4 * i + 2) 0 + 16777216 * chunk.getD (4 * i + 3) 0

/-- 32-bit left rotation by `c`, in arithmetic form. -/
def rotl32 (x c : Nat) : Nat := (x * 2 ^ c + x / 2 ^ (32 - c)) % w32

/-- Round function F (rounds 0–15): `(b ∧ c) ∨ (¬b ∧ d)`. -/
def md5F (b c d : Nat) : Nat := (b.land c).lor ((b.xor 4294967295).land d)

/-- Round function G (rounds 16–31): `(d ∧ b) ∨ (¬d ∧ c)`. -/
def md5G (b c d : Nat) : Nat := (d.land b).lor ((d.xor 4294967295).land c)

/-- Round function H (rounds 32–47): `b ⊕ c ⊕ d`. -/
def md5H (b c d : Nat) : Nat := (b.xor c).xor d

/-- Round function I (rounds 48–63): `c ⊕ (b ∨ ¬d)`. -/
def md5I (b c d : Nat) : Nat := c.xor (b.lor (d.xor 4294967295))

/-- One MD5 operation: round `i` applied to state `(a, b, c, d)` with message
word accessor `m`. -/
def md5Mix (m : Nat → Nat) (i : Nat) (st : Nat × Nat × Nat × Nat) :
    Nat × Nat × Nat × Nat :=
  let (a, b, c, d) := st
  let fg : Nat × Nat :=
    if i < 16 then (md5F b c d, i)
    else if i < 32 then (md5G b c d, (5 * i + 1) % 16)
    else if i < 48 then (md5H b c d, (3 * i + 5) % 16)
    else (md5I b c d, (7 * i) % 16)
  let f := (fg.1 + a + md5K.getD i 0 + m fg.2) % w32
  (d, (b + rotl32 f (md5S.getD i 0)) % w32, b, c)

/-- Process one 64-byte chunk: 64 rounds, then add into the running state. -/
def md5Chunk (st : Nat × Nat × Nat × Nat) (chunk : List Nat) :
    Nat × Nat × Nat × Nat :=
  let r := (List.range 64).foldl (fun s i => md5Mix (leWord chunk) i s) st
  ((st.1 + r.1) % w32, (st.2.1 + r.2.1) % w32,
   (st.2.2.1 + r.2.2.1) % w32, (st.2.2.2 + r.2.2.2) % w32)

/-- Split a byte list into 64-byte chunks (fuel-based structural recursion;
the fuel `bs.length` always suffices since each step consumes at least one
byte of a nonempty list). -/
def chunksGo : Nat → List Nat → List (List Nat)
  | 0, _ => []
  | _, [] => []
  | n + 1, b :: bs => (b :: bs).take 64 :: chunksGo n ((b :: bs).drop 64)

/-- Split a byte list into 64-byte chunks. -/
def chunks64 (bs : List Nat) : List (List Nat) := chunksGo bs.length bs

/-- The MD5 initial state. -/
def md5Init : Nat × Nat × Nat × Nat :=
  (0x67452301, 0xefcdab89, 0x98badcfe, 0x10325476)

/-- The 16-byte MD5 digest of a byte string: each state word serialized
little-endian. -/
def md5Bytes (msg : List Nat) : List Nat :=
  let r := (chunks64 (md5Pad msg)).foldl md5Chunk md5Init
  leBytes 4 r.1 ++ leBytes 4 r.2.1 ++ leBytes 4 r.2.2.1 ++ leBytes 4 r.2.2.2

/-- The digest read as one big unsigned integer, exactly as Python's
`int(hash_object.hexdigest(), 16)`: the digest bytes big-endian. -/
def md5Int (msg : List Nat) : Nat :=
  (md5Bytes msg).foldl (fun acc byte => acc * 256 + byte) 0

/-! ## UTF-8 encoding (Python's `str.encode('utf-8')`) -/

/-- The UTF-8 bytes of one code point. -/
def utf8Char (c : Char) : List Nat :=
  let n := c.toNat
  if n < 128 then [n]
  else if n < 2048 then [192 + n / 64, 128 + n % 64]
  else if n < 65536 then [224 + n / 4096, 128 + n / 64 % 64, 128 + n % 64]
  else [240 + n / 262144, 128 + n / 4096 % 64, 128 + n / 64 % 64, 128 + n % 64]

/-- The UTF-8 encoding of a string as a byte list. -/
def utf8Encode (s : String) : List Nat := (s.data.map utf8Char).flatten

/-! ## `get_bucket` (src/app.py, lines 41–50) -/

/-- `get_bucket(user_id, experiment_id)`: MD5 of the UTF-8 encoding of
`f"{user_id}:{experiment_id}"`, the hex digest read as an integer, mod 100. -/
def get_bucket (user_id experiment_id : String) : Nat :=
  md5Int (utf8Encode (user_id ++ ":" ++ experiment_id)) % 100

/-! ## Data model

`Variant` is §3's data model for one entry of an experiment's `variants`
array: a payload `value` and an integer `traffic_percentage` (the source
accesses `variant['traffic_percentage']` directly in `select_variant`).
-/

/-- One variant of an experiment. -/
structure Variant where
  value : String
  traffic_percentage : Int
deriving DecidableEq, Repr

/-- An experiment document as stored in the `experiments` collection.
`id` is the string form of the Mongo `_id` (`str(experiment['_id'])`). -/
structure Experiment where
  id : String
  name : String
  key : String
  status : String
  variants : List Variant
deriving DecidableEq, Repr

/-- A value stored in an event's `experiment_id` (or legacy `experimentId`)
field: either a raw string or a native `ObjectId` (carried by its 24-hex
string); `Option` absence models a null/absent field. -/
inductive DbVal where
  | str : String → DbVal
  | oid : String → DbVal
deriving DecidableEq, Repr

/-- An event document in the `events` collection, as written by
`track_event` (plus the legacy `experimentId` field name that
`reset_experiment_stats` also matches). -/
structure Event where
  user_id : Option String
  experiment_id : Option DbVal
  variant_name : Option String
  event_name : Option String
  experimentId : Option DbVal
deriving DecidableEq, Repr

/-- The durable state: the `experiments` and `events` collections, in
insertion order. -/
structure Store where
  experiments : List Experiment
  events : List Event
deriving DecidableEq, Repr

/-! ## `select_variant` (src/app.py, lines 52–63)

The Python loop walks `experiment['variants']`, accumulating
`cumulative_threshold`, and returns the first variant with
`bucket < cumulative_threshold`; after the loop it evaluates
`experiment['variants'][-1]`, which on an empty list raises `IndexError`.
A raised exception is modelled as `none`.
-/

/-- The selection loop with accumulator `acc` (`cumulative_threshold`). -/
def selectLoop (bucket acc : Int) : List Variant → Option Variant
  | [] => none
  | v :: vs =>
    if bucket < acc + v.traffic_percentage then some v
    else selectLoop bucket (acc + v.traffic_percentage) vs

/-- `select_variant(experiment, bucket)`: the loop, then the
`variants[-1]` fallback (`getLast?` is `none` exactly when the list is
empty, where Python raises `IndexError`). -/
def select_variant (variants : List Variant) (bucket : Int) : Option Variant :=
  match selectLoop bucket 0 variants with
  | some v => some v
  | none => variants.getLast?

/-- Sum of the `traffic_percentage` of the first `n` variants: the value
of `cumulative_threshold` after `n` loop iterations. -/
def cumSum (vs : List Variant) (n : Nat) : Int :=
  ((vs.take n).map Variant.traffic_percentage).sum

/-! ## Store operations

Mongo semantics used by the source: `find_one` returns the first matching
document, `insert_one` appends, `update_one` updates the first match,
`delete_one` removes the first match, `delete_many` removes all matches.
HTTP outcomes are the status code paired with the resulting store.
-/

/-- `db.experiments.find_one({"key": key})`. -/
def findExp (key : String) (st : Store) : Option Experiment :=
  st.experiments.find? (fun e => e.key == key)

/-- Sum of `traffic_percentage` over a variants payload
(`sum(v.get('traffic_percentage', 0) for v in ...)` on well-formed
variants, whose `traffic_percentage` is always present). -/
def sumTraffic (vs : List Variant) : Int :=
  (vs.map Variant.traffic_percentage).sum

/-- The request body of `POST /api/experiments`; `Option` models absent
JSON fields. -/
structure CreatePayload where
  name : Option String
  key : Option String
  variants : Option (List Variant)
deriving DecidableEq, Repr

/-- `create_experiment` (src/app.py, lines 67–97).  `newId` stands for the
`_id` Mongo assigns on insert.  Missing `variants` (or an empty payload) is
the 400 "Invalid payload" branch; a traffic sum ≠ 100 is the 400 sum branch;
a missing `name`/`key` raises `KeyError` (500, nothing inserted). -/
def create_experiment (newId : String) (data : CreatePayload) (st : Store) :
    Nat × Store :=
  match data.variants with
  | none => (400, st)
  | some vs =>
    if sumTraffic vs ≠ 100 then (400, st)
    else
      match data.name, data.key with
      | some n, some k =>
        (201, { st with experiments :=
          st.experiments ++ [⟨newId, n, k, "active", vs⟩] })
      | _, _ => (500, st)

/-- The request body of `PUT /api/admin/experiments/<key>`. -/
structure UpdatePayload where
  status : Option String
  variants : Option (List Variant)
deriving DecidableEq, Repr

/-- `$set` of the collected `update_fields` on one document. -/
def applySet (p : UpdatePayload) (e : Experiment) : Experiment :=
  { e with status := p.status.getD e.status,
           variants := p.variants.getD e.variants }

/-- `update_one({"key": key}, {"$set": fields})`: update the first match. -/
def setFirst (key : String) (f : Experiment → Experiment) :
    List Experiment → List Experiment
  | [] => []
  | e :: es => if e.key == key then f e :: es else e :: setFirst key f es

/-- `update_experiment` (src/app.py, lines 231–257): collect `status` and/or
`variants` into `update_fields` (rejecting a variants list whose traffic sum
is not 100); reject when no valid field is present; then `update_one`,
answering 404 when no document matched. -/
def update_experiment (key : String) (data : UpdatePayload) (st : Store) :
    Nat × Store :=
  match data.variants with
  | some vs =>
    if sumTraffic vs ≠ 100 then (400, st)
    else if st.experiments.any (fun e => e.key == key) then
      (200, { st with experiments := setFirst key (applySet data) st.experiments })
    else (404, st)
  | none =>
    match data.status with
    | none => (400, st)
    | some _ =>
      if st.experiments.any (fun e => e.key == key) then
        (200, { st with experiments := setFirst key (applySet data) st.experiments })
      else (404, st)

/-- `delete_one({"key": key})`: remove the first experiment with this key,
or `none` when nothing matched (`deleted_count == 0`). -/
def deleteFirst (key : String) : List Experiment → Option (List Experiment)
  | [] => none
  | e :: es =>
    if e.key == key then some es
    else (deleteFirst key es).map (fun es2 => e :: es2)

/-- `delete_experiment` (src/app.py, lines 202–208). -/
def delete_experiment (key : String) (st : Store) : Nat × Store :=
  match deleteFirst key st.experiments with
  | some es => (200, { st with experiments := es })
  | none => (404, st)

/-- The `$or` filter of `reset_experiment_stats`: raw-string `experiment_id`,
`ObjectId` `experiment_id`, or legacy `experimentId` field. -/
def matchReset (eid : String) (ev : Event) : Bool :=
  ev.experiment_id == some (DbVal.str eid) ||
    ev.experiment_id == some (DbVal.oid eid) ||
    ev.experimentId == some (DbVal.str eid)

/-- `reset_experiment_stats` (src/app.py, lines 210–229): resolve the key
(404 when unknown), `delete_many` the matching events, and report
`deleted_count`.  The first result component is the HTTP status, the second
the reported count. -/
def reset_experiment_stats (key : String) (st : Store) :
    (Nat × Option Nat) × Store :=
  match findExp key st with
  | none => ((404, none), st)
  | some exp =>
    ((200, some (st.events.countP (matchReset exp.id))),
      { st with events := st.events.filter (fun ev => !matchReset exp.id ev) })

/-- The request body of `POST /api/track`; every field is optional. -/
structure TrackPayload where
  userId : Option String
  experimentId : Option DbVal
  variantName : Option String
  event : Option String
deriving DecidableEq, Repr

/-- `track_event` (src/app.py, lines 128–144): append one event document
built from the payload (`data.get(...)`, so absent fields are stored as
null); the legacy `experimentId` field is never written by this handler. -/
def track_event (data : TrackPayload) (st : Store) : Nat × Store :=
  (201, { st with events := st.events ++
    [⟨data.userId, data.experimentId, data.variantName, data.event, none⟩] })

/-- The `$or` filter of `get_experiment_summary`: raw-string or `ObjectId`
`experiment_id` only. -/
def matchesSummary (eid : String) (ev : Event) : Bool :=
  ev.experiment_id == some (DbVal.str eid) ||
    ev.experiment_id == some (DbVal.oid eid)

/-- The distinct `variant_name` values among a list of events: the `$group`
keys of the aggregation pipeline. -/
def variantNames (evs : List Event) : List (Option String) :=
  (evs.map Event.variant_name).dedup

/-- One `$group` row: `{_id, exposures, conversions}`, where `exposures`
sums `$cond [$eq event_name "exposure"] 1 0` and `conversions` likewise
for `"conversion"`. -/
def groupRow (evs : List Event) (n : Option String) : Option String × Nat × Nat :=
  (n,
   (evs.filter (fun ev => ev.variant_name == n)).countP
     (fun ev => ev.event_name == some "exposure"),
   (evs.filter (fun ev => ev.variant_name == n)).countP
     (fun ev => ev.event_name == some "conversion"))

/-- `get_experiment_summary` (src/app.py, lines 146–191): resolve the key
(404 = `none`), match events under both identifier representations, group by
`variant_name`, and count exposures and conversions per group.  The result
carries the experiment name and the aggregation rows. -/
def get_experiment_summary (key : String) (st : Store) :
    Option (String × List (Option String × Nat × Nat)) :=
  match findExp key st with
  | none => none
  | some exp =>
    let matching := st.events.filter (matchesSummary exp.id)
    some (exp.name, (variantNames matching).map (groupRow matching))

/-- `get_all_experiments` (src/app.py, lines 195–200): `find({}, {"_id": 0,
"name": 1, "key": 1, "status": 1})` renders every experiment as exactly the
projected fields, in order.  (The stray line `Add "variants": 1` in the
body is not an executable statement; the projection it was meant to produce
is absent from the query actually written.) -/
def get_all_experiments (st : Store) : List (List (String × String)) :=
  st.experiments.map (fun e => [("name", e.name), ("key", e.key), ("status", e.status)])

/-- One entry of the `/api/config` response. -/
structure ConfigItem where
  experimentId : String
  key : String
  value : String
deriving DecidableEq, Repr

/-- The loop of `get_config` over the active experiments: bucket, select,
emit; a raised `IndexError` from `select_variant` propagates (`none`). -/
def configLoop (uid : String) : List Experiment → Option (List ConfigItem)
  | [] => some []
  | exp :: rest =>
    match select_variant exp.variants (get_bucket uid exp.id : Int) with
    | none => none
    | some v =>
      (configLoop uid rest).map (fun l => ⟨exp.id, exp.key, v.value⟩ :: l)

/-- `get_config` (src/app.py, lines 99–123): 400 when `userId` is absent or
empty (falsy), otherwise the assignment list over the active experiments;
`Except.error 500` models an uncaught exception. -/
def get_config (userId : Option String) (st : Store) :
    Except Nat (List ConfigItem) :=
  match userId with
  | none => Except.error 400
  | some uid =>
    if uid = "" then Except.error 400
    else
      match configLoop uid (st.experiments.filter (fun e => e.status == "active")) with
      | some l => Except.ok l
      | none => Except.error 500

/-! ## HTTP route table (the `@app.route` decorators of src/app.py) -/

/-- One path segment of a route pattern: a literal or a `<param>`. -/
inductive Seg where
  | lit : String → Seg
  | param : Seg
deriving DecidableEq, Repr

/-- A registered route: HTTP method, path pattern, and whether its handler
reads any request header (none of the handlers in src/app.py does — there
is no admin-secret check anywhere). -/
structure Route where
  method : String
  segs : List Seg
  readsAuthHeader : Bool
deriving DecidableEq, Repr

/-- Every route registered in src/app.py, in source order. -/
def appRoutes : List Route :=
  [⟨"POST", [Seg.lit "api", Seg.lit "experiments"], false⟩,
   ⟨"GET", [Seg.lit "api", Seg.lit "config"], false⟩,
   ⟨"GET", [], false⟩,
   ⟨"POST", [Seg.lit "api", Seg.lit "track"], false⟩,
   ⟨"GET", [Seg.lit "api", Seg.lit "admin", Seg.lit "summary", Seg.param], false⟩,
   ⟨"GET", [Seg.lit "api", Seg.lit "admin", Seg.lit "experiments"], false⟩,
   ⟨"DELETE", [Seg.lit "api", Seg.lit "admin", Seg.lit "experiments", Seg.param], false⟩,
   ⟨"DELETE", [Seg.lit "api", Seg.lit "admin", Seg.lit "stats", Seg.param], false⟩,
   ⟨"PUT", [Seg.lit "api", Seg.lit "admin", Seg.lit "experiments", Seg.param], false⟩]

/-- Whether one pattern segment accepts one concrete path segment. -/
def segMatch : Seg → String → Bool
  | Seg.lit s, t => s == t
  | Seg.param, _ => true

/-- Whether a route accepts a request. -/
def routeMatches (r : Route) (m : String) (path : List String) : Bool :=
  r.method == m && r.segs.length == path.length &&
    (r.segs.zip path).all (fun p => segMatch p.1 p.2)

/-- Flask dispatch: the first registered route accepting the request, if
any; `none` means Flask answers 404. -/
def dispatch (m : String) (path : List String) : Option Route :=
  appRoutes.find? (fun r => routeMatches r m path)


/-- §3's persistence invariant: every stored experiment's variant
percentages sum to 100. -/
def storeInv (st : Store) : Prop :=
  ∀ e ∈ st.experiments, sumTraffic e.variants = 100

/-- The experiment of the spec's aggregation example. -/
def summaryExampleExp : Experiment :=
  ⟨"e1", "Exp", "k", "active", [⟨"A", 50⟩, ⟨"B", 50⟩]⟩

/-- The spec's aggregation example: events `[A/exposure, A/exposure,
A/conversion, B/exposure]`, stored under both identifier representations. -/
def summaryExample : Store :=
  ⟨[summaryExampleExp],
   [⟨some "u1", some (DbVal.str "e1"), some "A", some "exposure", none⟩,
    ⟨some "u2", some (DbVal.oid "e1"), some "A", some "exposure", none⟩,
    ⟨some "u1", some (DbVal.str "e1"), some "A", some "conversion", none⟩,
    ⟨some "u3", some (DbVal.str "e1"), some "B", some "exposure", none⟩]⟩

/-- A store exercising the reset filter: one experiment and events stored
under the raw-string id, the `ObjectId` id, the legacy `experimentId`
field, and one unrelated event. -/
def resetExample : Store :=
  ⟨[⟨"e1", "Exp", "k", "active", [⟨"A", 100⟩]⟩],
   [⟨some "u1", some (DbVal.str "e1"), some "A", some "exposure", none⟩,
    ⟨some "u2", some (DbVal.oid "e1"), some "A", some "conversion", none⟩,
    ⟨some "u3", none, some "A", some "exposure", some (DbVal.str "e1")⟩,
    ⟨some "u4", some (DbVal.str "other"), some "A", some "exposure", none⟩]⟩

/-- A store holding one active experiment with an empty variant list. -/
def emptyVariantsExample : Store :=
  ⟨[⟨"e1", "Broken", "k", "active", []⟩], []⟩

/-! ## Theorems -/

/-- Known-answer test: `hashlib.md5(b"abc").hexdigest()` as an integer. -/
theorem md5Int_abc :
    md5Int (utf8Encode "abc") = 191415658344158766168031473277922803570 := by
  decide

/-- Known-answer test: the MD5 of the empty byte string. -/
theorem md5Int_nil :
    md5Int [] = 281949768489412648962353822266799178366 := by
  decide

theorem cumSum_zero (vs : List Variant) : cumSum vs 0 = 0 := rfl

theorem cumSum_cons (v : Variant) (vs : List Variant) (n : Nat) :
    cumSum (v :: vs) (n + 1) = v.traffic_percentage + cumSum vs n := by
  simp [cumSum]

theorem cumSum_succ (vs : List Variant) (n : Nat) (h : n < vs.length) :
    cumSum vs (n + 1) = cumSum vs n + (vs.get ⟨n, h⟩).traffic_percentage := by
  unfold cumSum
  rw [List.map_take, List.map_take, List.sum_take_succ _ n (by simpa using h)]
  simp [List.get_eq_getElem]

theorem cumSum_succ_of_le (vs : List Variant) (n : Nat) (h : vs.length ≤ n) :
    cumSum vs (n + 1) = cumSum vs n := by
  unfold cumSum
  rw [List.take_of_length_le h, List.take_of_length_le (Nat.le_succ_of_le h)]

theorem cumSum_nonneg (vs : List Variant)
    (hnn : ∀ v ∈ vs, 0 ≤ v.traffic_percentage) (n : Nat) : 0 ≤ cumSum vs n := by
  apply List.sum_nonneg
  intro x hx
  obtain ⟨v, hv, rfl⟩ := List.mem_map.mp hx
  exact hnn v (List.mem_of_mem_take hv)

theorem cumSum_mono (vs : List Variant)
    (hnn : ∀ v ∈ vs, 0 ≤ v.traffic_percentage) :
    ∀ {m n : Nat}, m ≤ n → cumSum vs m ≤ cumSum vs n := by
  intro m n h
  induction n with
  | zero => rw [Nat.le_zero.mp h]
  | succ k ih =>
    rcases Nat.lt_or_ge m (k + 1) with hm | hm
    · have h1 : cumSum vs m ≤ cumSum vs k := ih (Nat.lt_succ_iff.mp hm)
      rcases Nat.lt_or_ge k vs.length with hk | hk
      · rw [cumSum_succ vs k hk]
        have h2 := hnn (vs.get ⟨k, hk⟩) (List.get_mem vs k hk)
        omega
      · rw [cumSum_succ_of_le vs k hk]; exact h1
    · rw [Nat.le_antisymm h hm]

/-- The loop misses every variant iff every running threshold stays `≤ bucket`. -/
theorem selectLoop_eq_none_iff (b : Int) (vs : List Variant) :
    ∀ acc, selectLoop b acc vs = none ↔
      ∀ i < vs.length, acc + cumSum vs (i + 1) ≤ b := by
  induction vs with
  | nil => intro acc; simp [selectLoop]
  | cons v vs ih =>
    intro acc
    rw [selectLoop]
    by_cases hb : b < acc + v.traffic_percentage
    · rw [if_pos hb]
      constructor
      · intro h; exact absurd h (by simp)
      · intro h
        exfalso
        have h0 := h 0 (by simp)
        rw [cumSum_cons, cumSum_zero] at h0
        omega
    · rw [if_neg hb, ih (acc + v.traffic_percentage)]
      constructor
      · intro h i hi
        cases i with
        | zero => rw [cumSum_cons, cumSum_zero]; omega
        | succ j =>
          have hj : j < vs.length := by simpa using hi
          have := h j hj
          rw [cumSum_cons]
          omega
      · intro h i hi
        have := h (i + 1) (by simpa using Nat.succ_lt_succ hi)
        rw [cumSum_cons] at this
        omega

/-- When the loop returns a variant, it is the first one whose running
threshold strictly exceeds the bucket. -/
theorem selectLoop_eq_some (b : Int) (vs : List Variant) :
    ∀ acc w, selectLoop b acc vs = some w →
      ∃ i, ∃ hi : i < vs.length, w = vs.get ⟨i, hi⟩ ∧
        b < acc + cumSum vs (i + 1) ∧ ∀ j < i, acc + cumSum vs (j + 1) ≤ b := by
  induction vs with
  | nil => intro acc w h; simp [selectLoop] at h
  | cons v vs ih =>
    intro acc w h
    rw [selectLoop] at h
    by_cases hb : b < acc + v.traffic_percentage
    · rw [if_pos hb] at h
      refine ⟨0, by simp, (Option.some.inj h).symm, ?_, ?_⟩
      · rw [cumSum_cons, cumSum_zero]; omega
      · intro j hj; omega
    · rw [if_neg hb] at h
      obtain ⟨i, hi, hw, hlt, hfirst⟩ := ih (acc + v.traffic_percentage) w h
      refine ⟨i + 1, Nat.succ_lt_succ hi, hw, ?_, ?_⟩
      · rw [cumSum_cons]; omega
      · intro j hj
        cases j with
        | zero => rw [cumSum_cons, cumSum_zero]; omega
        | succ k =>
          have := hfirst k (Nat.lt_of_succ_lt_succ hj)
          rw [cumSum_cons]
          omega

/-- Conversely, a first-threshold-exceeding index is what the loop returns. -/
theorem selectLoop_eq_some_of (b : Int) (vs : List Variant) :
    ∀ acc i (hi : i < vs.length),
      (∀ j < i, acc + cumSum vs (j + 1) ≤ b) →
      b < acc + cumSum vs (i + 1) →
      selectLoop b acc vs = some (vs.get ⟨i, hi⟩) := by
  induction vs with
  | nil => intro acc i hi; exact absurd hi (by simp)
  | cons v vs ih =>
    intro acc i hi hfirst hlt
    rw [selectLoop]
    cases i with
    | zero =>
      rw [cumSum_cons, cumSum_zero] at hlt
      rw [if_pos (by omega)]
      rfl
    | succ k =>
      have h0 := hfirst 0 (Nat.succ_pos k)
      rw [cumSum_cons, cumSum_zero] at h0
      rw [if_neg (by omega)]
      rw [cumSum_cons] at hlt
      have hk : k < vs.length := Nat.lt_of_succ_lt_succ hi
      exact ih (acc + v.traffic_percentage) k hk
        (fun j hj => by
          have := hfirst (j + 1) (Nat.succ_lt_succ hj)
          rw [cumSum_cons] at this
          omega)
        (by omega)

/-- C2: `select_variant` on a non-empty variant sequence returns the first
variant (in stored order) whose running cumulative `traffic_percentage` sum
strictly exceeds the bucket, and falls back to the last variant — without
error — when every cumulative sum is `≤ bucket`. -/
theorem select_variant_first_exceeding (vs : List Variant) (b : Int)
    (h : vs ≠ []) :
    (∃ i, ∃ hi : i < vs.length,
        select_variant vs b = some (vs.get ⟨i, hi⟩) ∧
        b < cumSum vs (i + 1) ∧ ∀ j < i, cumSum vs (j + 1) ≤ b) ∨
      ((∀ i < vs.length, cumSum vs (i + 1) ≤ b) ∧
        select_variant vs b = some (vs.getLast h)) := by
  cases hc : selectLoop b 0 vs with
  | some w =>
    left
    obtain ⟨i, hi, hw, hlt, hfirst⟩ := selectLoop_eq_some b vs 0 w hc
    refine ⟨i, hi, ?_, by simpa using hlt, fun j hj => by simpa using hfirst j hj⟩
    rw [select_variant, hc, hw]
  | none =>
    right
    constructor
    · intro i hi
      have := (selectLoop_eq_none_iff b vs 0).mp hc i hi
      simpa using this
    · rw [select_variant, hc, List.getLast?_eq_getLast_of_ne_nil h]

/-- Witness for C2 at `vs = [red 60, blue 40]`, `b = 70`. -/
theorem select_variant_first_exceeding_witness :
    (⟨"red", 60⟩ :: [⟨"blue", (40 : Int)⟩] : List Variant) ≠ [] ∧
      ((∃ i, ∃ hi : i < (⟨"red", 60⟩ :: [⟨"blue", (40 : Int)⟩] : List Variant).length,
          select_variant (⟨"red", 60⟩ :: [⟨"blue", 40⟩]) 70 =
            some ((⟨"red", 60⟩ :: [⟨"blue", 40⟩] : List Variant).get ⟨i, hi⟩) ∧
          (70 : Int) < cumSum (⟨"red", 60⟩ :: [⟨"blue", 40⟩]) (i + 1) ∧
          ∀ j < i, cumSum (⟨"red", 60⟩ :: [⟨"blue", 40⟩]) (j + 1) ≤ 70) ∨
        ((∀ i < (⟨"red", 60⟩ :: [⟨"blue", (40 : Int)⟩] : List Variant).length,
            cumSum (⟨"red", 60⟩ :: [⟨"blue", 40⟩]) (i + 1) ≤ 70) ∧
          select_variant (⟨"red", 60⟩ :: [⟨"blue", 40⟩]) 70 =
            some ((⟨"red", 60⟩ :: [⟨"blue", 40⟩] : List Variant).getLast (by decide)))) :=
  ⟨by decide, select_variant_first_exceeding _ 70 (by decide)⟩

/-- On a non-empty variant sequence, `select_variant` always yields a
variant (the fallback is `variants[-1]`). -/
theorem select_variant_isSome (vs : List Variant) (h : vs ≠ []) (b : Int) :
    ∃ v, select_variant vs b = some v := by
  cases hc : selectLoop b 0 vs with
  | some w => exact ⟨w, by rw [select_variant, hc]⟩
  | none =>
    exact ⟨vs.getLast h,
      by rw [select_variant, hc, List.getLast?_eq_getLast_of_ne_nil h]⟩

/-- Under the sum-to-100 invariant, bucket `b ∈ [0, 100)` selects the variant
at index `i` exactly when `b` lies in the half-open cumulative interval
`[cumSum i, cumSum (i+1))`. -/
theorem select_variant_eq_get_iff (vs : List Variant)
    (hnn : ∀ v ∈ vs, 0 ≤ v.traffic_percentage) (hnd : vs.Nodup)
    (hsum : cumSum vs vs.length = 100)
    (b : Int) (hb0 : 0 ≤ b) (hb1 : b < 100)
    (i : Nat) (hi : i < vs.length) :
    select_variant vs b = some (vs.get ⟨i, hi⟩) ↔
      cumSum vs i ≤ b ∧ b < cumSum vs (i + 1) := by
  have hne : vs ≠ [] := by
    rintro rfl
    exact absurd hsum (by decide)
  have hlen : 0 < vs.length := List.length_pos.mpr hne
  have hnotnone : selectLoop b 0 vs ≠ none := by
    intro hnone
    have h100 := (selectLoop_eq_none_iff b vs 0).mp hnone (vs.length - 1) (by omega)
    rw [Nat.sub_add_cancel hlen, hsum] at h100
    omega
  cases hc : selectLoop b 0 vs with
  | none => exact absurd hc hnotnone
  | some w =>
    have hsel : select_variant vs b = some w := by rw [select_variant, hc]
    obtain ⟨i0, hi0, hw, hlt, hfirst⟩ := selectLoop_eq_some b vs 0 w hc
    constructor
    · intro hgi
      have hww : vs.get ⟨i0, hi0⟩ = vs.get ⟨i, hi⟩ := by
        rw [← hw]
        exact Option.some.inj (hsel ▸ hgi)
      have hii : i0 = i := by
        have := (hnd.get_inj_iff).mp hww
        exact congrArg Fin.val this
      subst hii
      refine ⟨?_, by simpa using hlt⟩
      cases i0 with
      | zero => rw [cumSum_zero]; exact hb0
      | succ k =>
        have := hfirst k (Nat.lt_succ_self k)
        simpa using this
    · rintro ⟨hci, hci1⟩
      have hloop : selectLoop b 0 vs = some (vs.get ⟨i, hi⟩) := by
        apply selectLoop_eq_some_of b vs 0 i hi
        · intro j hj
          have hmono := cumSum_mono vs hnn (show j + 1 ≤ i by omega)
          omega
        · omega
      rw [select_variant, hloop]

/-- C3: for a duplicate-free variant sequence of non-negative integer
percentages summing to 100, every bucket in `0..99` is assigned exactly one
variant, and the number of buckets assigned to each variant equals its
`traffic_percentage` (exactly, in fact — well within the claimed ±1
tolerance). -/
theorem select_variant_distribution (vs : List Variant)
    (hnn : ∀ v ∈ vs, 0 ≤ v.traffic_percentage) (hnd : vs.Nodup)
    (hsum : cumSum vs vs.length = 100) :
    (∀ b : Nat, b < 100 → ∃ v, select_variant vs (b : Int) = some v) ∧
      ∀ i, ∀ hi : i < vs.length,
        (((Finset.range 100).filter
            (fun b : Nat => select_variant vs (b : Int) = some (vs.get ⟨i, hi⟩))).card : Int) =
          (vs.get ⟨i, hi⟩).traffic_percentage := by
  have hne : vs ≠ [] := by
    rintro rfl
    exact absurd hsum (by decide)
  refine ⟨fun b _ => select_variant_isSome vs hne (b : Int), ?_⟩
  intro i hi
  have h0i : 0 ≤ cumSum vs i := cumSum_nonneg vs hnn i
  have h0i1 : 0 ≤ cumSum vs (i + 1) := cumSum_nonneg vs hnn (i + 1)
  have hmono : cumSum vs i ≤ cumSum vs (i + 1) :=
    cumSum_mono vs hnn (Nat.le_succ i)
  have hub : cumSum vs (i + 1) ≤ 100 :=
    hsum ▸ cumSum_mono vs hnn (Nat.succ_le_of_lt hi)
  have hset : (Finset.range 100).filter
      (fun b : Nat => select_variant vs (b : Int) = some (vs.get ⟨i, hi⟩)) =
      Finset.Ico (cumSum vs i).toNat (cumSum vs (i + 1)).toNat := by
    ext b
    simp only [Finset.mem_filter, Finset.mem_range, Finset.mem_Ico]
    constructor
    · rintro ⟨hb, hselb⟩
      have hiff := select_variant_eq_get_iff vs hnn hnd hsum (b : Int)
        (Int.ofNat_nonneg b) (by exact_mod_cast hb) i hi
      obtain ⟨h1, h2⟩ := hiff.mp hselb
      exact ⟨Int.toNat_le.mpr h1, Int.lt_toNat.mpr h2⟩
    · rintro ⟨h1, h2⟩
      have hb : b < 100 := by
        have : (cumSum vs (i + 1)).toNat ≤ 100 := Int.toNat_le.mpr (by exact_mod_cast hub)
        omega
      have hiff := select_variant_eq_get_iff vs hnn hnd hsum (b : Int)
        (Int.ofNat_nonneg b) (by exact_mod_cast hb) i hi
      exact ⟨hb, hiff.mpr ⟨Int.toNat_le.mp h1, Int.lt_toNat.mp h2⟩⟩
  rw [hset, Nat.card_Ico]
  have hle : (cumSum vs i).toNat ≤ (cumSum vs (i + 1)).toNat :=
    Int.toNat_le_toNat hmono
  rw [Nat.cast_sub hle, Int.toNat_of_nonneg h0i, Int.toNat_of_nonneg h0i1,
    cumSum_succ vs i hi]
  ring

/-- Witness for C3 at `vs = [red 60, blue 40]`. -/
theorem select_variant_distribution_witness :
    (∀ v ∈ (⟨"red", 60⟩ :: [⟨"blue", (40 : Int)⟩] : List Variant),
        0 ≤ v.traffic_percentage) ∧
      (⟨"red", 60⟩ :: [⟨"blue", (40 : Int)⟩] : List Variant).Nodup ∧
      cumSum (⟨"red", 60⟩ :: [⟨"blue", 40⟩])
        (⟨"red", 60⟩ :: [⟨"blue", (40 : Int)⟩] : List Variant).length = 100 ∧
      ((∀ b : Nat, b < 100 →
          ∃ v, select_variant (⟨"red", 60⟩ :: [⟨"blue", 40⟩]) (b : Int) = some v) ∧
        ∀ i, ∀ hi : i < (⟨"red", 60⟩ :: [⟨"blue", (40 : Int)⟩] : List Variant).length,
          (((Finset.range 100).filter
              (fun b : Nat => select_variant (⟨"red", 60⟩ :: [⟨"blue", 40⟩]) (b : Int) =
                some ((⟨"red", 60⟩ :: [⟨"blue", 40⟩] : List Variant).get ⟨i, hi⟩))).card : Int) =
            ((⟨"red", 60⟩ :: [⟨"blue", 40⟩] : List Variant).get ⟨i, hi⟩).traffic_percentage) :=
  ⟨by decide, by decide, by decide,
    select_variant_distribution _ (by decide) (by decide) (by decide)⟩

/-- C1: `get_bucket` is the MD5 digest of the UTF-8 encoding of
`subject_id ++ ":" ++ experiment_id` read as an unsigned integer, modulo
100; it always lies in `[0, 100)`; it is pure and deterministic (equal
input pairs give equal buckets); and the empty-string pair hashes like any
other input (its bucket evaluates to 59, matching `hashlib`). -/
theorem get_bucket_spec (subject_id experiment_id s2 e2 : String) :
    get_bucket subject_id experiment_id =
        md5Int (utf8Encode (subject_id ++ ":" ++ experiment_id)) % 100 ∧
      get_bucket subject_id experiment_id < 100 ∧
      (subject_id = s2 → experiment_id = e2 →
        get_bucket subject_id experiment_id = get_bucket s2 e2) ∧
      get_bucket "" "" = 59 := by
  refine ⟨rfl, Nat.mod_lt _ (by decide), ?_, by decide⟩
  rintro rfl rfl
  rfl

/-- Witness for C1 at `("user1", "exp1")` (bucket 65, matching `hashlib`). -/
theorem get_bucket_spec_witness :
    (get_bucket "user1" "exp1" =
        md5Int (utf8Encode ("user1" ++ ":" ++ "exp1")) % 100 ∧
      get_bucket "user1" "exp1" < 100 ∧
      ("user1" = "user1" → "exp1" = "exp1" →
        get_bucket "user1" "exp1" = get_bucket "user1" "exp1") ∧
      get_bucket "" "" = 59) ∧
      get_bucket "user1" "exp1" = 65 :=
  ⟨get_bucket_spec "user1" "exp1" "user1" "exp1", by decide⟩

/-- C4: for every resolvable experiment key, the summary aggregation groups
exactly the events matching the experiment id in either stored
representation by `variant_name`; each row's `exposures`/`conversions`
count exactly the matching events of that variant name whose `event_name`
is `"exposure"`/`"conversion"` (any other `event_name` increments neither);
a variant name with no matching event has no row; and the spec's four-event
example evaluates to `A ↦ (2, 1)`, `B ↦ (1, 0)`. -/
theorem get_experiment_summary_spec (st : Store) (key : String)
    (exp : Experiment) (h : findExp key st = some exp) :
    (∃ rows, get_experiment_summary key st = some (exp.name, rows) ∧
      (∀ n : Option String,
        (∃ e c, (n, e, c) ∈ rows) ↔
          ∃ ev ∈ st.events, matchesSummary exp.id ev = true ∧
            ev.variant_name = n) ∧
      (∀ n e c, (n, e, c) ∈ rows →
        e = st.events.countP (fun ev =>
              (ev.event_name == some "exposure" && ev.variant_name == n) &&
                matchesSummary exp.id ev) ∧
        c = st.events.countP (fun ev =>
              (ev.event_name == some "conversion" && ev.variant_name == n) &&
                matchesSummary exp.id ev))) ∧
      get_experiment_summary "k" summaryExample =
        some ("Exp", [(some "A", 2, 1), (some "B", 1, 0)]) := by
  refine ⟨?_, by decide⟩
  refine ⟨(variantNames (st.events.filter (matchesSummary exp.id))).map
      (groupRow (st.events.filter (matchesSummary exp.id))), ?_, ?_, ?_⟩
  · unfold get_experiment_summary
    rw [h]
  · intro n
    constructor
    · rintro ⟨e, c, hmem⟩
      obtain ⟨x, hx, hgx⟩ := List.mem_map.mp hmem
      simp only [groupRow, Prod.mk.injEq] at hgx
      obtain ⟨rfl, -, -⟩ := hgx
      obtain ⟨ev, hev, hname⟩ := List.mem_map.mp (List.mem_dedup.mp hx)
      have hf := List.mem_filter.mp hev
      exact ⟨ev, hf.1, hf.2, hname⟩
    · rintro ⟨ev, hev, hmatch, hname⟩
      refine ⟨_, _, List.mem_map.mpr ⟨n, ?_, rfl⟩⟩
      exact List.mem_dedup.mpr
        (List.mem_map.mpr ⟨ev, List.mem_filter.mpr ⟨hev, hmatch⟩, hname⟩)
  · intro n e c hmem
    obtain ⟨x, hx, hgx⟩ := List.mem_map.mp hmem
    simp only [groupRow, Prod.mk.injEq] at hgx
    obtain ⟨rfl, he, hc⟩ := hgx
    constructor
    · rw [← he, List.countP_filter, List.countP_filter]
    · rw [← hc, List.countP_filter, List.countP_filter]

/-- Witness for C4 on the spec's example store. -/
theorem get_experiment_summary_spec_witness :
    findExp "k" summaryExample = some summaryExampleExp ∧
      ((∃ rows, get_experiment_summary "k" summaryExample =
          some (summaryExampleExp.name, rows) ∧
        (∀ n : Option String,
          (∃ e c, (n, e, c) ∈ rows) ↔
            ∃ ev ∈ summaryExample.events,
              matchesSummary summaryExampleExp.id ev = true ∧
                ev.variant_name = n) ∧
        (∀ n e c, (n, e, c) ∈ rows →
          e = summaryExample.events.countP (fun ev =>
                (ev.event_name == some "exposure" && ev.variant_name == n) &&
                  matchesSummary summaryExampleExp.id ev) ∧
          c = summaryExample.events.countP (fun ev =>
                (ev.event_name == some "conversion" && ev.variant_name == n) &&
                  matchesSummary summaryExampleExp.id ev))) ∧
        get_experiment_summary "k" summaryExample =
          some ("Exp", [(some "A", 2, 1), (some "B", 1, 0)])) :=
  ⟨by decide, get_experiment_summary_spec summaryExample "k" summaryExampleExp
    (by decide)⟩

/-- Members of `setFirst key f es` come from `es`, either untouched or with
`f` applied (to the first key match). -/
theorem mem_setFirst (key : String) (f : Experiment → Experiment) :
    ∀ (es : List Experiment) (x : Experiment), x ∈ setFirst key f es →
      x ∈ es ∨ ∃ e ∈ es, x = f e := by
  intro es
  induction es with
  | nil => intro x hx; exact absurd hx (by simp [setFirst])
  | cons e es ih =>
    intro x hx
    rw [setFirst] at hx
    split at hx
    · rcases List.mem_cons.mp hx with h | h
      · exact Or.inr ⟨e, List.mem_cons_self e es, h⟩
      · exact Or.inl (List.mem_cons_of_mem e h)
    · rcases List.mem_cons.mp hx with h | h
      · exact Or.inl (h ▸ List.mem_cons_self e es)
      · rcases ih x h with h2 | ⟨y, hy, hxy⟩
        · exact Or.inl (List.mem_cons_of_mem e h2)
        · exact Or.inr ⟨y, List.mem_cons_of_mem e hy, hxy⟩

/-- C5: the sum-to-100 invariant is enforced and preserved: a create or a
variants-touching update whose percentages do not sum to 100 is rejected
with 400 and leaves the store unchanged, and both operations keep every
persisted experiment's percentages summing to 100. -/
theorem sum_to_100_invariant (newId : String) (p : CreatePayload)
    (q : UpdatePayload) (ukey : String) (st : Store) (hst : storeInv st) :
    (∀ vs, p.variants = some vs → sumTraffic vs ≠ 100 →
        create_experiment newId p st = (400, st)) ∧
      storeInv (create_experiment newId p st).2 ∧
      (∀ vs, q.variants = some vs → sumTraffic vs ≠ 100 →
        update_experiment ukey q st = (400, st)) ∧
      storeInv (update_experiment ukey q st).2 := by
  refine ⟨?_, ?_, ?_, ?_⟩
  · intro vs hv hs
    unfold create_experiment
    rw [hv]
    simp [hs]
  · unfold create_experiment
    split
    · exact hst
    · split
      · exact hst
      · next hs =>
        split
        · next n k =>
          intro e he
          rcases List.mem_append.mp he with h | h
          · exact hst e h
          · rw [List.mem_singleton.mp h]
            simpa using not_ne_iff.mp hs
        · exact hst
  · intro vs hv hs
    unfold update_experiment
    rw [hv]
    simp [hs]
  · unfold update_experiment
    split
    · next vs hv =>
      split
      · exact hst
      · next hs =>
        split
        · intro e he
          rcases mem_setFirst ukey (applySet q) st.experiments e he with h | ⟨y, hy, rfl⟩
          · exact hst e h
          · show sumTraffic (applySet q y).variants = 100
            unfold applySet
            rw [hv]
            simpa using not_ne_iff.mp hs
        · exact hst
    · next hv =>
      split
      · exact hst
      · split
        · intro e he
          rcases mem_setFirst ukey (applySet q) st.experiments e he with h | ⟨y, hy, rfl⟩
          · exact hst e h
          · show sumTraffic (applySet q y).variants = 100
            unfold applySet
            rw [hv]
            exact hst y hy
        · exact hst

/-- Witness for C5: the spec's `60 + 39 = 99` payload is rejected on create
and update, on the empty store. -/
theorem sum_to_100_invariant_witness :
    storeInv ⟨[], []⟩ ∧
      ((∀ vs, (CreatePayload.mk (some "Exp") (some "btn")
            (some [⟨"red", 60⟩, ⟨"blue", 39⟩])).variants = some vs →
          sumTraffic vs ≠ 100 →
          create_experiment "x" (CreatePayload.mk (some "Exp") (some "btn")
            (some [⟨"red", 60⟩, ⟨"blue", 39⟩])) ⟨[], []⟩ = (400, ⟨[], []⟩)) ∧
        storeInv (create_experiment "x" (CreatePayload.mk (some "Exp")
          (some "btn") (some [⟨"red", 60⟩, ⟨"blue", 39⟩])) ⟨[], []⟩).2 ∧
        (∀ vs, (UpdatePayload.mk none
            (some [⟨"red", 60⟩, ⟨"blue", 39⟩])).variants = some vs →
          sumTraffic vs ≠ 100 →
          update_experiment "btn" (UpdatePayload.mk none
            (some [⟨"red", 60⟩, ⟨"blue", 39⟩])) ⟨[], []⟩ = (400, ⟨[], []⟩)) ∧
        storeInv (update_experiment "btn" (UpdatePayload.mk none
          (some [⟨"red", 60⟩, ⟨"blue", 39⟩])) ⟨[], []⟩).2) :=
  ⟨by simp [storeInv], sum_to_100_invariant "x" _ _ "btn" ⟨[], []⟩
    (by simp [storeInv])⟩

/-- C6: deleting an experiment never touches the events collection; the
stats-reset operation answers 404 when the key resolves to no experiment
and otherwise deletes exactly the events matching the resolved identifier
in any stored representation (raw-string `experiment_id`, `ObjectId`
`experiment_id`, legacy `experimentId`), reporting the number deleted:
the reported count plus the surviving events account for every event. -/
theorem delete_and_reset_events (key : String) (st : Store) :
    (delete_experiment key st).2.events = st.events ∧
      (∀ newId p, (create_experiment newId p st).2.events = st.events) ∧
      (∀ q, (update_experiment key q st).2.events = st.events) ∧
      (∀ d, (track_event d st).2.events = st.events ++
        [⟨d.userId, d.experimentId, d.variantName, d.event, none⟩]) ∧
      (∀ exp, findExp key st = some exp →
        reset_experiment_stats key st =
            ((200, some (st.events.countP (matchReset exp.id))),
              { st with events :=
                st.events.filter (fun ev => !matchReset exp.id ev) }) ∧
          st.events.countP (matchReset exp.id) +
              (st.events.filter (fun ev => !matchReset exp.id ev)).length =
            st.events.length) ∧
      (findExp key st = none → reset_experiment_stats key st = ((404, none), st)) := by
  refine ⟨?_, ?_, ?_, fun d => rfl, ?_, ?_⟩
  · unfold delete_experiment
    cases deleteFirst key st.experiments <;> rfl
  · intro newId p
    unfold create_experiment
    split
    · rfl
    · split
      · rfl
      · split
        · rfl
        · rfl
  · intro q
    unfold update_experiment
    split
    · split
      · rfl
      · split
        · rfl
        · rfl
    · split
      · rfl
      · split
        · rfl
        · rfl
  · intro exp h
    constructor
    · unfold reset_experiment_stats
      rw [h]
    · rw [← List.countP_eq_length_filter]
      simpa using (List.length_eq_countP_add_countP (matchReset exp.id) st.events).symm
  · intro h
    unfold reset_experiment_stats
    rw [h]

/-- Witness for C6 on a store with events in all three representations
plus one unrelated event. -/
theorem delete_and_reset_events_witness :
    findExp "k" resetExample = some ⟨"e1", "Exp", "k", "active", [⟨"A", 100⟩]⟩ ∧
      ((delete_experiment "k" resetExample).2.events = resetExample.events ∧
        (∀ newId p,
          (create_experiment newId p resetExample).2.events = resetExample.events) ∧
        (∀ q, (update_experiment "k" q resetExample).2.events = resetExample.events) ∧
        (∀ d, (track_event d resetExample).2.events = resetExample.events ++
          [⟨d.userId, d.experimentId, d.variantName, d.event, none⟩]) ∧
        (∀ exp, findExp "k" resetExample = some exp →
          reset_experiment_stats "k" resetExample =
              ((200, some (resetExample.events.countP (matchReset exp.id))),
                { resetExample with events :=
                  resetExample.events.filter (fun ev => !matchReset exp.id ev) }) ∧
            resetExample.events.countP (matchReset exp.id) +
                (resetExample.events.filter
                  (fun ev => !matchReset exp.id ev)).length =
              resetExample.events.length) ∧
        (findExp "k" resetExample = none →
          reset_experiment_stats "k" resetExample = ((404, none), resetExample))) :=
  ⟨by decide, delete_and_reset_events "k" resetExample⟩

/-- If some experiment in the list has an empty variant list, the
`get_config` loop raises (`none`): `select_variant` on `[]` is the
`IndexError` of `variants[-1]`. -/
theorem configLoop_eq_none (uid : String) (exp : Experiment)
    (hemp : exp.variants = []) :
    ∀ l : List Experiment, exp ∈ l → configLoop uid l = none := by
  intro l
  induction l with
  | nil => intro h; exact absurd h (by simp)
  | cons e rest ih =>
    intro h
    rcases List.mem_cons.mp h with rfl | h2
    · rw [configLoop, hemp]
      rfl
    · rw [configLoop]
      cases hs : select_variant e.variants (get_bucket uid e.id : Int) with
      | none => rfl
      | some v => rw [ih h2]; rfl

/-- C7: an active experiment with an empty variant list makes the
assignment endpoint fail loudly (an uncaught `IndexError`, never a
placeholder assignment); `select_variant` itself returns a variant
exactly when the sequence is non-empty, so its fallback only answers on
non-empty sequences. -/
theorem empty_variants_fails_loudly (vs : List Variant) (b : Int)
    (uid : String) (st : Store) (exp : Experiment)
    (hmem : exp ∈ st.experiments) (hact : exp.status = "active")
    (hemp : exp.variants = []) :
    select_variant ([] : List Variant) b = none ∧
      ((select_variant vs b).isSome ↔ vs ≠ []) ∧
      ∀ l, get_config (some uid) st ≠ Except.ok l := by
  refine ⟨rfl, ?_, ?_⟩
  · constructor
    · intro hsome hnil
      subst hnil
      simp [select_variant, selectLoop] at hsome
    · intro hne
      obtain ⟨v, hv⟩ := select_variant_isSome vs hne b
      rw [hv]
      rfl
  · intro l
    simp only [get_config]
    by_cases hu : uid = ""
    · simp [hu]
    · rw [if_neg hu]
      rw [configLoop_eq_none uid exp hemp
        (st.experiments.filter (fun e => e.status == "active"))
        (List.mem_filter.mpr ⟨hmem, by simp [hact]⟩)]
      simp

/-- Witness for C7 on a store with one active zero-variant experiment. -/
theorem empty_variants_fails_loudly_witness :
    (⟨"e1", "Broken", "k", "active", []⟩ : Experiment) ∈
        emptyVariantsExample.experiments ∧
      (⟨"e1", "Broken", "k", "active", []⟩ : Experiment).status = "active" ∧
      (⟨"e1", "Broken", "k", "active", []⟩ : Experiment).variants = [] ∧
      (select_variant ([] : List Variant) 7 = none ∧
        ((select_variant [⟨"red", 100⟩] 7).isSome ↔
          ([⟨"red", 100⟩] : List Variant) ≠ []) ∧
        ∀ l, get_config (some "u") emptyVariantsExample ≠ Except.ok l) :=
  ⟨by decide, rfl, rfl,
    empty_variants_fails_loudly [⟨"red", 100⟩] 7 "u" emptyVariantsExample
      ⟨"e1", "Broken", "k", "active", []⟩ (by decide) rfl rfl⟩

/-- C8 counterexample: no route of src/app.py accepts
`POST /api/admin/login` — Flask answers 404 — so the claimed login
endpoint (200 on the configured secret, 401 otherwise) does not exist,
and there is no header-based admin gate to carry it. -/
theorem no_admin_login_route :
    dispatch "POST" ["api", "admin", "login"] = none := by decide

/-- C8 amended: the backend registers no `/api/admin/login` route, and no
registered handler reads any request header: there is no admin-secret
check, so every admin route is unconditionally open (as in the claim's
unconfigured-secret case). -/
theorem admin_routes_open :
    dispatch "POST" ["api", "admin", "login"] = none ∧
      ∀ r ∈ appRoutes, r.readsAuthHeader = false := by decide

/-- C9: `GET /api/admin/experiments` renders every experiment with exactly
the fields `name`, `key`, `status` — the `variants` field the claim (and
the stray, syntactically invalid line `Add "variants": 1`) expects is
absent from the projection. -/
theorem get_all_experiments_fields (st : Store) :
    (get_all_experiments st).map (fun fields => fields.map Prod.fst) =
      st.experiments.map (fun _ => ["name", "key", "status"]) := by
  unfold get_all_experiments
  rw [List.map_map]
  rfl

/-- C10: a PUT body containing neither `status` nor `variants` is answered
400 ("No valid fields to update") before any key lookup, so an unknown key
with an empty update yields 400, never 404. -/
theorem update_no_valid_fields (key : String) (st : Store)
    (data : UpdatePayload) (h1 : data.status = none)
    (h2 : data.variants = none) :
    update_experiment key data st = (400, st) := by
  unfold update_experiment
  rw [h2, h1]

/-- Witness for C10 on a store holding no experiment at all. -/
theorem update_no_valid_fields_witness :
    (UpdatePayload.mk none none).status = none ∧
      (UpdatePayload.mk none none).variants = none ∧
      update_experiment "nope" (UpdatePayload.mk none none) ⟨[], []⟩ =
        (400, (⟨[], []⟩ : Store)) :=
  ⟨rfl, rfl, update_no_valid_fields "nope" ⟨[], []⟩ (UpdatePayload.mk none none) rfl rfl⟩

end VariantBackend
